import Mathlib

/-!
# Verification of the Android native keyring store core

Shallow embedding of the envelope-encryption protocol and credential
lifecycle of the `android-native-keyring-store` crate
(`src/credential.rs`, `src/shared_preferences.rs`, `src/keystore.rs`).

The external Java collaborators are modelled at their interface
boundary: the key store is a state (alias to key-handle map plus the
generation specs used), the cipher is a pair of functions supplied as a
parameter, and SharedPreferences is a string-keyed map from
(file name, key) to stored text.  Binary values cross the
SharedPreferences boundary through the base64 standard-alphabet padded
encoding used by `put_binary` / `get_binary`, which is embedded
concretely below.
-/

namespace AndroidKeyring

/-! ## Constants (from `credential.rs`) -/

def IV_LEN : Nat := 12

def PURPOSE_ENCRYPT : Nat := 1

def PURPOSE_DECRYPT : Nat := 2

def BLOCK_MODE_GCM : String := "GCM"

def ENCRYPTION_PADDING_NONE : String := "NoPadding"

/-! ## Base64 (standard alphabet, padded), from the `base64` crate as used
by `shared_preferences.rs` (`BASE64_STANDARD.encode` / `.decode`). -/

/-- Character of the standard base64 alphabet for a sextet `n < 64`. -/
def b64Char (n : Nat) : Char :=
  if n < 26 then Char.ofNat (65 + n)
  else if n < 52 then Char.ofNat (97 + (n - 26))
  else if n < 62 then Char.ofNat (48 + (n - 52))
  else if n = 62 then '+'
  else '/'

/-- Inverse alphabet lookup: the sextet value of a base64 character,
`none` for characters outside the standard alphabet (including `=`). -/
def b64Index (c : Char) : Option Nat :=
  let n := c.toNat
  if 65 ≤ n ∧ n ≤ 90 then some (n - 65)
  else if 97 ≤ n ∧ n ≤ 122 then some (n - 97 + 26)
  else if 48 ≤ n ∧ n ≤ 57 then some (n - 48 + 52)
  else if n = 43 then some 62
  else if n = 47 then some 63
  else none

/-- Base64 encoding of a byte list, three bytes per four-character group,
`=`-padded in the final partial group. -/
def b64Encode : List Nat → List Char
  | [] => []
  | [a] => [b64Char (a / 4), b64Char (a % 4 * 16), '=', '=']
  | [a, b] => [b64Char (a / 4), b64Char (a % 4 * 16 + b / 16), b64Char (b % 16 * 4), '=']
  | a :: b :: c :: rest =>
      b64Char (a / 4) :: b64Char (a % 4 * 16 + b / 16) ::
      b64Char (b % 16 * 4 + c / 64) :: b64Char (c % 64) :: b64Encode rest

/-- Decode one four-character base64 group given the already-decoded tail.
Strict: padding must be canonical and trailing bits zero, as in the
`base64` crate standard engine. -/
def b64DecodeGroup (c1 c2 c3 c4 : Char) (rest : List Char)
    (restDec : Option (List Nat)) : Option (List Nat) :=
  match b64Index c1, b64Index c2 with
  | some s1, some s2 =>
    if c3 = '=' then
      if c4 = '=' ∧ rest = [] ∧ s2 % 16 = 0 then some [s1 * 4 + s2 / 16] else none
    else
      match b64Index c3 with
      | some s3 =>
        if c4 = '=' then
          if rest = [] ∧ s3 % 4 = 0 then some [s1 * 4 + s2 / 16, s2 % 16 * 16 + s3 / 4]
          else none
        else
          match b64Index c4 with
          | some s4 =>
            match restDec with
            | some tailBytes =>
                some ((s1 * 4 + s2 / 16) :: (s2 % 16 * 16 + s3 / 4) ::
                      (s3 % 4 * 64 + s4) :: tailBytes)
            | none => none
          | none => none
      | none => none
  | _, _ => none

/-- Strict base64 decoding: input length must be a multiple of four and
every group must decode; returns `none` otherwise. -/
def b64Decode : List Char → Option (List Nat)
  | [] => some []
  | [_] => none
  | [_, _] => none
  | [_, _, _] => none
  | c1 :: c2 :: c3 :: c4 :: rest => b64DecodeGroup c1 c2 c3 c4 rest (b64Decode rest)

theorem b64Index_b64Char : ∀ s < 64, b64Index (b64Char s) = some s := by decide

theorem b64Char_ne_pad : ∀ s < 64, b64Char s ≠ '=' := by decide

/-- The strict decoder inverts the encoder on byte lists. -/
theorem b64Decode_b64Encode :
    ∀ (l : List Nat), (∀ b ∈ l, b < 256) → b64Decode (b64Encode l) = some l
  | [], _ => rfl
  | [a], h => by
      have ha : a < 256 := h a (by simp)
      have h1 := b64Index_b64Char (a / 4) (by omega)
      have h2 := b64Index_b64Char (a % 4 * 16) (by omega)
      simp only [b64Encode, b64Decode, b64DecodeGroup, h1, h2]
      have h0 : a % 4 * 16 % 16 = 0 := by omega
      simp only [h0, and_true, and_self, if_true, reduceIte]
      simp only [Option.some.injEq, List.cons.injEq, and_true]
      omega
  | [a, b], h => by
      have ha : a < 256 := h a (by simp)
      have hb : b < 256 := h b (by simp)
      have h1 := b64Index_b64Char (a / 4) (by omega)
      have h2 := b64Index_b64Char (a % 4 * 16 + b / 16) (by omega)
      have h3 := b64Index_b64Char (b % 16 * 4) (by omega)
      have hne := b64Char_ne_pad (b % 16 * 4) (by omega)
      simp only [b64Encode, b64Decode, b64DecodeGroup, h1, h2, h3, hne, if_false, reduceIte]
      have h4 : b % 16 * 4 % 4 = 0 := by omega
      simp only [h4, and_self, and_true, if_true, reduceIte]
      simp only [Option.some.injEq, List.cons.injEq, and_true]
      constructor <;> omega
  | a :: b :: c :: rest, h => by
      have ha : a < 256 := h a (by simp)
      have hb : b < 256 := h b (by simp)
      have hc : c < 256 := h c (by simp)
      have ih := b64Decode_b64Encode rest (fun x hx => h x (by simp [hx]))
      have h1 := b64Index_b64Char (a / 4) (by omega)
      have h2 := b64Index_b64Char (a % 4 * 16 + b / 16) (by omega)
      have h3 := b64Index_b64Char (b % 16 * 4 + c / 64) (by omega)
      have h4 := b64Index_b64Char (c % 64) (by omega)
      have hne3 := b64Char_ne_pad (b % 16 * 4 + c / 64) (by omega)
      have hne4 := b64Char_ne_pad (c % 64) (by omega)
      simp only [b64Encode, b64Decode, b64DecodeGroup, h1, h2, h3, h4, hne3, hne4,
        if_false, reduceIte, ih]
      simp only [Option.some.injEq, List.cons.injEq, and_true]
      refine ⟨by omega, by omega, by omega⟩

/-! ## SharedPreferences (`shared_preferences.rs`)

One SharedPreferences file per service name; each file maps string keys
to string values.  `Prefs` is the whole persisted family of files:
`prefs file key` is the stored text for `key` in file `file`. -/

def Prefs : Type := String → String → Option (List Char)

/-- The lookup behind `SharedPreferences::get_string`. -/
def getString (p : Prefs) (file key : String) : Option (List Char) := p file key

/-- `SharedPreferences::get_binary`: read the stored text and base64-decode
it; a decode failure is logged and reported as `none` (absent). -/
def getBinary (p : Prefs) (file key : String) : Option (List Nat) :=
  match getString p file key with
  | none => none
  | some b64 =>
    match b64Decode b64 with
    | some data => some data
    | none => none

/-- `SharedPreferencesEditor::put_binary` followed by `commit`: store the
base64 encoding of `value` under `key`. -/
def putBinary (p : Prefs) (file key : String) (value : List Nat) : Prefs :=
  fun f k => if f = file ∧ k = key then some (b64Encode value) else p f k

/-- `SharedPreferencesEditor::remove` followed by `commit`. -/
def removeKey (p : Prefs) (file key : String) : Prefs :=
  fun f k => if f = file ∧ k = key then none else p f k

/-! ## Key store (`keystore.rs` collaborator state) -/

/-- Key-generation spec assembled by `KeyGenParameterSpecBuilder` as driven
from `AndroidCredential::get_key`. -/
structure KeyGenSpec where
  keystoreAlias : String
  purposes : Nat
  blockModes : List String
  encryptionPaddings : List String
  userAuthenticationRequired : Bool
deriving DecidableEq, Repr

/-- `KeyGenParameterSpecBuilder::new(alias, purposes)`. -/
def specBuilderNew (a : String) (purposes : Nat) : KeyGenSpec :=
  { keystoreAlias := a, purposes := purposes, blockModes := [],
    encryptionPaddings := [], userAuthenticationRequired := false }

/-- `KeyGenParameterSpecBuilder::set_block_modes`. -/
def setBlockModes (s : KeyGenSpec) (modes : List String) : KeyGenSpec :=
  { s with blockModes := modes }

/-- `KeyGenParameterSpecBuilder::set_encryption_paddings`. -/
def setEncryptionPaddings (s : KeyGenSpec) (paddings : List String) : KeyGenSpec :=
  { s with encryptionPaddings := paddings }

/-- `KeyGenParameterSpecBuilder::set_user_authentication_required`. -/
def setUserAuthenticationRequired (s : KeyGenSpec) (required : Bool) : KeyGenSpec :=
  { s with userAuthenticationRequired := required }

/-- `KeyGenParameterSpecBuilder::build` freezes the spec. -/
def specBuilderBuild (s : KeyGenSpec) : KeyGenSpec := s

/-- State of the AndroidKeyStore collaborator: key handles are opaque and
modelled as numeric ids; `entries` maps an alias to its key id, `specs`
records the generation spec of every key generated by this system, and
`nextId` supplies fresh ids. -/
structure KeystoreState where
  entries : List (String × Nat)
  specs : List (Nat × KeyGenSpec)
  nextId : Nat

/-- `KeyStore::get_key(alias)`: the key registered under `alias`, if any. -/
def aliasLookup : List (String × Nat) → String → Option Nat
  | [], _ => none
  | (a, k) :: rest, s => if a = s then some k else aliasLookup rest s

/-- Generation spec recorded for a key id, if this system generated it. -/
def specLookup : List (Nat × KeyGenSpec) → Nat → Option KeyGenSpec
  | [], _ => none
  | (k, sp) :: rest, key => if k = key then some sp else specLookup rest key

/-- `AndroidCredential::get_key`: under the single process-wide
`SERVICE_LOCK` (one `static Mutex` shared by all services, held for the
whole body, so the body is one atomic state transition), look the service
alias up in the key store; return the existing key unchanged, or generate
a fresh key under that alias from the builder chain
`new(service, PURPOSE_DECRYPT | PURPOSE_ENCRYPT)` /
`set_block_modes([GCM])` / `set_encryption_paddings([NoPadding])` /
`set_user_authentication_required(false)` / `build()`. -/
def get_key (ks : KeystoreState) (service : String) : Nat × KeystoreState :=
  match aliasLookup ks.entries service with
  | some key => (key, ks)
  | none =>
    let spec := specBuilderBuild
      (setUserAuthenticationRequired
        (setEncryptionPaddings
          (setBlockModes
            (specBuilderNew service (PURPOSE_DECRYPT ||| PURPOSE_ENCRYPT))
            [BLOCK_MODE_GCM])
          [ENCRYPTION_PADDING_NONE])
        false)
    let key := ks.nextId
    (key, { entries := (service, key) :: ks.entries,
            specs := (key, spec) :: ks.specs,
            nextId := ks.nextId + 1 })

/-! ## Cipher collaborator (`cipher.rs` boundary) -/

/-- The `javax.crypto.Cipher` collaborator, at its interface boundary:
`encrypt key secret` is the (IV, ciphertext-with-tag) pair produced by
`init(ENCRYPT_MODE)` / `get_iv` / `do_final(secret)`, and
`decrypt key iv ct` is `init(DECRYPT_MODE, GCMParameterSpec(128, iv))` /
`do_final(ct)`, `none` meaning the authentication failure path. -/
structure CipherOps where
  encrypt : Nat → List Nat → List Nat × List Nat
  decrypt : Nat → List Nat → List Nat → Option (List Nat)

/-! ## Errors (`credential.rs`) -/

/-- The `CorruptedData` reason enumeration. -/
inductive CorruptedData where
  | MissingIvLen : CorruptedData
  | InvalidIvLen : Nat → CorruptedData
  | DataTooSmall : Nat → CorruptedData
  | DecryptionFailure : CorruptedData
deriving DecidableEq, Repr

/-- The crate-level `AndroidKeyringError`. -/
inductive AndroidKeyringError where
  | JniError : AndroidKeyringError
  | JavaExceptionThrow : AndroidKeyringError
  | CorruptedData : List Nat → CorruptedData → AndroidKeyringError
deriving DecidableEq, Repr

/-- The `keyring_core::Error` variants reachable from this store. -/
inductive KeyringError where
  | NoEntry : KeyringError
  | BadDataFormat : List Nat → CorruptedData → KeyringError
  | PlatformFailure : KeyringError
  | NotSupportedByStore : KeyringError
deriving DecidableEq, Repr

/-- `impl From<AndroidKeyringError> for keyring_core::Error`. -/
def androidToKeyring : AndroidKeyringError → KeyringError
  | AndroidKeyringError.JniError => KeyringError.PlatformFailure
  | AndroidKeyringError.JavaExceptionThrow => KeyringError.PlatformFailure
  | AndroidKeyringError.CorruptedData data reason => KeyringError.BadDataFormat data reason

/-- Result of one credential operation: success, a returned
`keyring_core::Error`, or a fatal assertion failure (the `assert_eq!`
in `set_secret`, which aborts instead of returning an error). -/
inductive Outcome (α : Type) where
  | ok : α → Outcome α
  | err : KeyringError → Outcome α
  | fatal : Outcome α
deriving DecidableEq, Repr

/-! ## Credential operations (`impl CredentialApi for AndroidCredential`) -/

/-- Whole-system state: the SharedPreferences files and the key store. -/
structure SysState where
  prefs : Prefs
  ks : KeystoreState

/-- `AndroidCredential::set_secret`: get the file and the key, encrypt,
check the produced IV length against `IV_LEN` (`assert_eq!` — fatal on
mismatch), build the envelope `[iv_len as u8] ++ iv ++ ciphertext` and
commit it under the user key. -/
def set_secret (cipher : CipherOps) (st : SysState) (service user : String)
    (secret : List Nat) : Outcome Unit × SysState :=
  let kks := get_key st.ks service
  let key := kks.1
  let ks2 := kks.2
  let ivct := cipher.encrypt key secret
  let iv := ivct.1
  let ciphertext := ivct.2
  if iv.length = IV_LEN then
    let iv_len := iv.length % 256
    let value := iv_len :: (iv ++ ciphertext)
    (Outcome.ok (), { prefs := putBinary st.prefs service user value, ks := ks2 })
  else
    (Outcome.fatal, { prefs := st.prefs, ks := ks2 })

/-- `AndroidCredential::get_secret`: get the file, get (or create) the
key, then read the record; absent record means `NoEntry`; otherwise
validate the envelope framing and decrypt, classifying failures as
`BadDataFormat` with the raw bytes and a `CorruptedData` reason. -/
def get_secret (cipher : CipherOps) (st : SysState) (service user : String) :
    Outcome (List Nat) × SysState :=
  let kks := get_key st.ks service
  let key := kks.1
  let st2 : SysState := { prefs := st.prefs, ks := kks.2 }
  let inner : Except AndroidKeyringError (Option (List Nat)) :=
    match getBinary st.prefs service user with
    | none => Except.ok none
    | some data =>
      if data.isEmpty then
        Except.error (AndroidKeyringError.CorruptedData data CorruptedData.MissingIvLen)
      else
        let iv_len := data.headD 0
        if iv_len ≠ IV_LEN then
          Except.error (AndroidKeyringError.CorruptedData data (CorruptedData.InvalidIvLen iv_len))
        else
          let ciphertext := data.tail
          let ciphertext_len := ciphertext.length
          if ciphertext_len ≤ iv_len then
            Except.error (AndroidKeyringError.CorruptedData data
              (CorruptedData.DataTooSmall ciphertext_len))
          else
            let iv := ciphertext.take iv_len
            let ct := ciphertext.drop iv_len
            match cipher.decrypt key iv ct with
            | some plaintext => Except.ok (some plaintext)
            | none =>
              Except.error (AndroidKeyringError.CorruptedData data
                CorruptedData.DecryptionFailure)
  let res : Outcome (List Nat) :=
    match inner with
    | Except.error e => Outcome.err (androidToKeyring e)
    | Except.ok (some r) => Outcome.ok r
    | Except.ok none => Outcome.err KeyringError.NoEntry
  (res, st2)

/-- `AndroidCredential::delete_credential`: remove the user key from the
service file and commit; succeeds whether or not the key was present. -/
def delete_credential (st : SysState) (service user : String) :
    Outcome Unit × SysState :=
  (Outcome.ok (), { prefs := removeKey st.prefs service user, ks := st.ks })

/-- `AndroidCredential::get_credential`: run `get_secret` for validation
only; propagate its error, discard its plaintext, return `None`. -/
def get_credential (cipher : CipherOps) (st : SysState) (service user : String) :
    Outcome (Option Unit) × SysState :=
  match get_secret cipher st service user with
  | (Outcome.ok _, st2) => (Outcome.ok none, st2)
  | (Outcome.err e, st2) => (Outcome.err e, st2)
  | (Outcome.fatal, st2) => (Outcome.fatal, st2)

/-- The credential handle constructed by `AndroidStore::build` /
`AndroidCredential::new`: just the identifying strings. -/
structure CredentialId where
  service : String
  user : String
deriving DecidableEq, Repr

/-- `AndroidStore::build`: constructs the credential from the service and
user strings; the modifiers argument is ignored (`_modifiers`). -/
def build (service user : String) (_modifiers : Option (List (String × String))) :
    Except KeyringError CredentialId :=
  Except.ok { service := service, user := user }

/-! ## Small concrete instances used by closed witness statements -/

/-- A concrete cipher: all-zero 12-byte IV, ciphertext is the plaintext
followed by a 16-byte tag of zeros, decryption strips the tag. -/
def zeroTagCipher : CipherOps :=
  { encrypt := fun _ p => (List.replicate IV_LEN 0, p ++ List.replicate 16 0),
    decrypt := fun _ _ c => some (c.take (c.length - 16)) }

/-- The empty system state: no stored records, no keys. -/
def emptyState : SysState :=
  { prefs := fun _ _ => none, ks := { entries := [], specs := [], nextId := 0 } }

/-- A state holding the text `"!"` (not valid base64) under
("svc", "usr"), with an empty key store. -/
def badB64State : SysState :=
  { prefs := fun f k => if f = "svc" ∧ k = "usr" then some [Char.ofNat 33] else none,
    ks := { entries := [], specs := [], nextId := 0 } }

/-! ## Helper lemmas -/

/-- Reading back the key just written returns its encoded value. -/
theorem getString_putBinary_same (p : Prefs) (file key : String) (value : List Nat) :
    getString (putBinary p file key value) file key = some (b64Encode value) := by
  simp [getString, putBinary]

/-- Binary round trip through the SharedPreferences text encoding. -/
theorem getBinary_putBinary_same (p : Prefs) (file key : String) (value : List Nat)
    (h : ∀ b ∈ value, b < 256) :
    getBinary (putBinary p file key value) file key = some value := by
  simp [getBinary, getString, putBinary, b64Decode_b64Encode value h]

/-- `get_key` is idempotent on the key-store state: a second call for the
same service returns the same key and leaves the state alone. -/
theorem get_key_stable (ks : KeystoreState) (service : String) :
    get_key (get_key ks service).2 service = get_key ks service := by
  cases h : aliasLookup ks.entries service with
  | some k => simp [get_key, h]
  | none => simp [get_key, h, aliasLookup]

/-- `get_secret` on a state whose record is absent at the binary layer
returns `NoEntry`. -/
theorem get_secret_absent (cipher : CipherOps) (st : SysState) (service user : String)
    (h : getBinary st.prefs service user = none) :
    (get_secret cipher st service user).1 = Outcome.err KeyringError.NoEntry := by
  simp [get_secret, h]

/-- `get_credential` passes a `get_secret` error through unchanged. -/
theorem get_credential_probe_err (cipher : CipherOps) (st : SysState)
    (service user : String) (e : KeyringError)
    (h : (get_secret cipher st service user).1 = Outcome.err e) :
    (get_credential cipher st service user).1 = Outcome.err e := by
  cases hgs : get_secret cipher st service user with
  | mk r st2 =>
    rw [hgs] at h
    simp only at h
    subst h
    simp [get_credential, hgs]

/-- `get_secret` on a state holding a well-formed envelope
`[IV_LEN] ++ iv ++ ct` decrypts it with the service key. -/
theorem get_secret_valid_envelope (cipher : CipherOps) (st : SysState)
    (service user : String) (iv ct P : List Nat)
    (hlen : iv.length = IV_LEN) (hct : ct ≠ [])
    (hbin : getBinary st.prefs service user = some (IV_LEN :: (iv ++ ct)))
    (hdec : cipher.decrypt (get_key st.ks service).1 iv ct = some P) :
    (get_secret cipher st service user).1 = Outcome.ok P := by
  have hlen12 : iv.length = 12 := by simpa [IV_LEN] using hlen
  have hctlen : ct.length ≠ 0 := fun h0 => hct (List.eq_nil_of_length_eq_zero h0)
  have hnotsmall : ¬ (iv.length + ct.length ≤ 12) := by omega
  simp [get_secret, hbin, hnotsmall, List.take_left' hlen12, List.drop_left' hlen12,
    hdec, IV_LEN]

/-! ## Claims -/

/-- C1: Round-trip: for every plaintext byte sequence P, `set_secret P` on
a credential followed by `get_secret` on any credential with the same
(service, user) returns exactly P, under the hypotheses that the cipher
collaborator produced a 12-byte IV, a nonempty ciphertext of bytes, and
that its decrypt inverts its encrypt for the same key and IV. -/
theorem set_then_get_roundtrip (cipher : CipherOps) (st : SysState)
    (service user : String) (P : List Nat)
    (hiv : (cipher.encrypt (get_key st.ks service).1 P).1.length = IV_LEN)
    (hbytes : ∀ b ∈ (cipher.encrypt (get_key st.ks service).1 P).1 ++
        (cipher.encrypt (get_key st.ks service).1 P).2, b < 256)
    (hct : (cipher.encrypt (get_key st.ks service).1 P).2 ≠ [])
    (hdec : cipher.decrypt (get_key st.ks service).1
        (cipher.encrypt (get_key st.ks service).1 P).1
        (cipher.encrypt (get_key st.ks service).1 P).2 = some P) :
    (get_secret cipher (set_secret cipher st service user P).2 service user).1
      = Outcome.ok P := by
  have hset : (set_secret cipher st service user P).2
      = { prefs := putBinary st.prefs service user
            (IV_LEN :: ((cipher.encrypt (get_key st.ks service).1 P).1 ++
                        (cipher.encrypt (get_key st.ks service).1 P).2)),
          ks := (get_key st.ks service).2 } := by
    simp [set_secret, hiv, IV_LEN]
  rw [hset]
  apply get_secret_valid_envelope _ _ _ _ _ _ P hiv hct
  · apply getBinary_putBinary_same
    intro b hb
    rcases List.mem_cons.1 hb with hb | hb
    · subst hb; simp [IV_LEN]
    · exact hbytes b hb
  · show cipher.decrypt (get_key (get_key st.ks service).2 service).1 _ _ = some P
    rw [get_key_stable]
    exact hdec

/-- C1 witness: a concrete round trip through the whole stack, base64
storage encoding included. -/
theorem set_then_get_roundtrip_witness :
    (zeroTagCipher.encrypt (get_key emptyState.ks "svc").1 [1, 2, 3]).1.length = IV_LEN ∧
    (get_secret zeroTagCipher (set_secret zeroTagCipher emptyState "svc" "usr" [1, 2, 3]).2
        "svc" "usr").1 = Outcome.ok [1, 2, 3] :=
  ⟨by decide, set_then_get_roundtrip zeroTagCipher emptyState "svc" "usr" [1, 2, 3]
      (by decide) (by decide) (by decide) (by decide)⟩

/-- C2: error classification of `get_secret` on a present record: empty
raw bytes give `MissingIvLen`; a first byte different from 12 gives
`InvalidIvLen` with that byte; at most 12 bytes after the first give
`DataTooSmall` with that count; otherwise the next 12 bytes are the IV,
the remainder the ciphertext, and a decrypt failure gives
`DecryptionFailure`; every case is `BadDataFormat` carrying the full raw
bytes. -/
theorem get_secret_error_classification (cipher : CipherOps) (st : SysState)
    (service user : String) (data : List Nat)
    (hget : getBinary st.prefs service user = some data) :
    (data = [] →
      (get_secret cipher st service user).1
        = Outcome.err (KeyringError.BadDataFormat data CorruptedData.MissingIvLen)) ∧
    (data ≠ [] → data.headD 0 ≠ IV_LEN →
      (get_secret cipher st service user).1
        = Outcome.err (KeyringError.BadDataFormat data
            (CorruptedData.InvalidIvLen (data.headD 0)))) ∧
    (data ≠ [] → data.headD 0 = IV_LEN → data.tail.length ≤ IV_LEN →
      (get_secret cipher st service user).1
        = Outcome.err (KeyringError.BadDataFormat data
            (CorruptedData.DataTooSmall data.tail.length))) ∧
    (data ≠ [] → data.headD 0 = IV_LEN → IV_LEN < data.tail.length →
      cipher.decrypt (get_key st.ks service).1 (data.tail.take IV_LEN)
          (data.tail.drop IV_LEN) = none →
      (get_secret cipher st service user).1
        = Outcome.err (KeyringError.BadDataFormat data CorruptedData.DecryptionFailure)) := by
  refine ⟨?_, ?_, ?_, ?_⟩
  · intro h
    subst h
    simp [get_secret, hget, androidToKeyring]
  · intro hne hhead
    rcases data with _ | ⟨a, rest⟩
    · exact absurd rfl hne
    · simp only [List.headD_cons] at hhead
      simp [get_secret, hget, hhead, androidToKeyring]
  · intro hne hhead hsmall
    rcases data with _ | ⟨a, rest⟩
    · exact absurd rfl hne
    · simp only [List.headD_cons] at hhead
      subst hhead
      simp only [List.tail_cons] at hsmall
      simp [get_secret, hget, hsmall, androidToKeyring]
  · intro hne hhead hbig hdec
    rcases data with _ | ⟨a, rest⟩
    · exact absurd rfl hne
    · simp only [List.headD_cons] at hhead
      subst hhead
      simp only [List.tail_cons] at hbig hdec
      have hns : ¬ rest.length ≤ IV_LEN := by omega
      simp [get_secret, hget, hns, hdec, androidToKeyring]

/-- C2 witness: an empty stored record is classified `MissingIvLen`
carrying the (empty) raw bytes. -/
theorem get_secret_error_classification_witness :
    getBinary (putBinary emptyState.prefs "svc" "usr" []) "svc" "usr" = some [] ∧
    (get_secret zeroTagCipher
        { prefs := putBinary emptyState.prefs "svc" "usr" [], ks := emptyState.ks }
        "svc" "usr").1
      = Outcome.err (KeyringError.BadDataFormat [] CorruptedData.MissingIvLen) :=
  ⟨by decide,
   (get_secret_error_classification zeroTagCipher
      { prefs := putBinary emptyState.prefs "svc" "usr" [], ks := emptyState.ks }
      "svc" "usr" [] (by decide)).1 rfl⟩

/-- C3: envelope serialization: when the cipher produces a 12-byte IV,
`set_secret` succeeds and persists under the user key exactly the bytes
`[iv.length as u8] ++ iv ++ ciphertext` (as base64 text at the store,
and verbatim at the binary layer); a produced IV of any other length is
a fatal assertion failure, not a returned error. -/
theorem set_secret_envelope_layout (cipher : CipherOps) (st : SysState)
    (service user : String) (P : List Nat) :
    ((cipher.encrypt (get_key st.ks service).1 P).1.length = IV_LEN →
      (set_secret cipher st service user P).1 = Outcome.ok () ∧
      getString (set_secret cipher st service user P).2.prefs service user
        = some (b64Encode ((cipher.encrypt (get_key st.ks service).1 P).1.length ::
            ((cipher.encrypt (get_key st.ks service).1 P).1 ++
             (cipher.encrypt (get_key st.ks service).1 P).2))) ∧
      ((∀ b ∈ (cipher.encrypt (get_key st.ks service).1 P).1 ++
            (cipher.encrypt (get_key st.ks service).1 P).2, b < 256) →
        getBinary (set_secret cipher st service user P).2.prefs service user
          = some ((cipher.encrypt (get_key st.ks service).1 P).1.length ::
              ((cipher.encrypt (get_key st.ks service).1 P).1 ++
               (cipher.encrypt (get_key st.ks service).1 P).2)))) ∧
    ((cipher.encrypt (get_key st.ks service).1 P).1.length ≠ IV_LEN →
      (set_secret cipher st service user P).1 = Outcome.fatal) := by
  constructor
  · intro hiv
    have hset : (set_secret cipher st service user P)
        = (Outcome.ok (),
           { prefs := putBinary st.prefs service user
                        ((cipher.encrypt (get_key st.ks service).1 P).1.length ::
                          ((cipher.encrypt (get_key st.ks service).1 P).1 ++
                           (cipher.encrypt (get_key st.ks service).1 P).2)),
             ks := (get_key st.ks service).2 }) := by
      simp [set_secret, hiv, IV_LEN]
    refine ⟨by rw [hset], by rw [hset]; exact getString_putBinary_same _ _ _ _, ?_⟩
    intro hbytes
    rw [hset]
    apply getBinary_putBinary_same
    intro b hb
    rcases List.mem_cons.1 hb with hb | hb
    · subst hb; simp [hiv, IV_LEN]
    · exact hbytes b hb
  · intro hiv
    simp [set_secret, hiv]

/-- C3 witness: a concrete successful write stores the framed envelope. -/
theorem set_secret_envelope_layout_witness :
    (zeroTagCipher.encrypt (get_key emptyState.ks "svc").1 [7]).1.length = IV_LEN ∧
    (set_secret zeroTagCipher emptyState "svc" "usr" [7]).1 = Outcome.ok () :=
  ⟨by decide,
   ((set_secret_envelope_layout zeroTagCipher emptyState "svc" "usr" [7]).1 (by decide)).1⟩

/-- C4: key provisioning: `get_key` (one atomic step under the single
process-wide `SERVICE_LOCK` shared by all services) returns an existing
key under the service alias unchanged, leaving the store untouched;
otherwise it generates and returns a fresh key under that alias whose
spec has purposes encrypt and decrypt, block mode GCM, padding none, and
user-presence requirement false. -/
theorem get_key_get_or_create (ks : KeystoreState) (service : String) :
    (∀ k, aliasLookup ks.entries service = some k → get_key ks service = (k, ks)) ∧
    (aliasLookup ks.entries service = none →
      aliasLookup (get_key ks service).2.entries service = some (get_key ks service).1 ∧
      specLookup (get_key ks service).2.specs (get_key ks service).1
        = some { keystoreAlias := service,
                 purposes := PURPOSE_ENCRYPT ||| PURPOSE_DECRYPT,
                 blockModes := [BLOCK_MODE_GCM],
                 encryptionPaddings := [ENCRYPTION_PADDING_NONE],
                 userAuthenticationRequired := false }) := by
  constructor
  · intro k h
    simp [get_key, h]
  · intro h
    constructor
    · simp [get_key, h, aliasLookup]
    · simp [get_key, h, specLookup, specBuilderBuild, setUserAuthenticationRequired,
        setEncryptionPaddings, setBlockModes, specBuilderNew]
      decide

/-- C4 witness: creating the key for a fresh service records the spec. -/
theorem get_key_get_or_create_witness :
    aliasLookup emptyState.ks.entries "svc" = none ∧
    specLookup (get_key emptyState.ks "svc").2.specs (get_key emptyState.ks "svc").1
      = some { keystoreAlias := "svc",
               purposes := PURPOSE_ENCRYPT ||| PURPOSE_DECRYPT,
               blockModes := [BLOCK_MODE_GCM],
               encryptionPaddings := [ENCRYPTION_PADDING_NONE],
               userAuthenticationRequired := false } :=
  ⟨rfl, ((get_key_get_or_create emptyState.ks "svc").2 rfl).2⟩

/-- C5 counterexample: on the empty state, `get_secret` of a never-written
(service, user) returns `NoEntry` and yet the key store has provisioned a
key for the service — the lookup is not performed before key
provisioning, so an absent record does reach the key-provisioning step. -/
theorem get_secret_key_first_cex :
    (get_secret zeroTagCipher emptyState "svc" "usr").1 = Outcome.err KeyringError.NoEntry ∧
    (get_secret zeroTagCipher emptyState "svc" "usr").2.ks.entries = [("svc", 0)] := by
  constructor
  · rfl
  · rfl

/-- C5 (amended): `get_secret` invokes key get-or-create unconditionally,
before consulting the stored record: the key-store state it leaves behind
is exactly the get-or-create result, whether the record is present,
absent or malformed. -/
theorem get_secret_provisions_key_unconditionally (cipher : CipherOps) (st : SysState)
    (service user : String) :
    (get_secret cipher st service user).2.ks = (get_key st.ks service).2 ∧
    (get_secret cipher st service user).2.prefs = st.prefs := by
  exact ⟨rfl, rfl⟩

/-- C6 counterexample: `build` with a non-empty options map returns the
credential, not the `NotSupportedByStore` error the claim requires. -/
theorem build_nonempty_options_cex :
    build "svc" "usr" (some [("k", "v")])
      = Except.ok { service := "svc", user := "usr" } ∧
    build "svc" "usr" (some [("k", "v")])
      ≠ Except.error KeyringError.NotSupportedByStore :=
  ⟨rfl, fun h => Except.noConfusion h⟩

/-- C6 (amended): `build` ignores the options map entirely: for every
options map, empty, absent or not, it returns a credential bound to the
given (service, user) with no side effects. -/
theorem build_ignores_options (service user : String)
    (modifiers : Option (List (String × String))) :
    build service user modifiers = Except.ok { service := service, user := user } := rfl

/-- C7: absence: whenever no record is stored for (service, user) —
including right after `delete_credential` — `get_secret` returns the
`NoEntry` error. -/
theorem absent_record_noentry (cipher : CipherOps) (st : SysState) (service user : String) :
    (st.prefs service user = none →
      (get_secret cipher st service user).1 = Outcome.err KeyringError.NoEntry) ∧
    (get_secret cipher (delete_credential st service user).2 service user).1
      = Outcome.err KeyringError.NoEntry := by
  constructor
  · intro h
    exact get_secret_absent _ _ _ _ (by simp [getBinary, getString, h])
  · apply get_secret_absent
    simp [getBinary, getString, delete_credential, removeKey]

/-- C7 witness: reading a never-written record of the empty state. -/
theorem absent_record_noentry_witness :
    emptyState.prefs "svc" "usr" = none ∧
    (get_secret zeroTagCipher emptyState "svc" "usr").1 = Outcome.err KeyringError.NoEntry :=
  ⟨rfl, (absent_record_noentry zeroTagCipher emptyState "svc" "usr").1 rfl⟩

/-- C8: idempotent delete: `delete_credential` returns success from every
starting state, record present or not, and afterwards the record is
absent. -/
theorem delete_credential_idempotent (st : SysState) (service user : String) :
    (delete_credential st service user).1 = Outcome.ok () ∧
    (delete_credential st service user).2.prefs service user = none := by
  constructor
  · rfl
  · simp [delete_credential, removeKey]

/-- C9: `get_credential` runs `get_secret`, propagates its error
unchanged, discards the plaintext and returns `None` on success, and
leaves the same state `get_secret` left — for every stored-record
state. -/
theorem get_credential_validation_probe (cipher : CipherOps) (st : SysState)
    (service user : String) :
    (∀ p, (get_secret cipher st service user).1 = Outcome.ok p →
      (get_credential cipher st service user).1 = Outcome.ok none) ∧
    (∀ e, (get_secret cipher st service user).1 = Outcome.err e →
      (get_credential cipher st service user).1 = Outcome.err e) ∧
    ((get_secret cipher st service user).1 = Outcome.fatal →
      (get_credential cipher st service user).1 = Outcome.fatal) ∧
    (get_credential cipher st service user).2 = (get_secret cipher st service user).2 := by
  cases hgs : get_secret cipher st service user with
  | mk r st2 =>
    cases r with
    | ok p => exact ⟨fun _ _ => by simp [get_credential, hgs],
        fun e he => by simp at he, fun hf => by simp at hf, by simp [get_credential, hgs]⟩
    | err e => exact ⟨fun p hp => by simp at hp,
        fun e' he' => by
          simp only [Outcome.err.injEq] at he'
          subst he'
          simp [get_credential, hgs],
        fun hf => by simp at hf, by simp [get_credential, hgs]⟩
    | fatal => exact ⟨fun p hp => by simp at hp, fun e' he' => by simp at he',
        fun _ => by simp [get_credential, hgs], by simp [get_credential, hgs]⟩

/-- C9 witness: on an absent record the `NoEntry` error propagates
through `get_credential` unchanged. -/
theorem get_credential_validation_probe_witness :
    (get_secret zeroTagCipher emptyState "svc" "usr").1 = Outcome.err KeyringError.NoEntry ∧
    (get_credential zeroTagCipher emptyState "svc" "usr").1
      = Outcome.err KeyringError.NoEntry :=
  ⟨rfl, (get_credential_validation_probe zeroTagCipher emptyState "svc" "usr").2.1
      KeyringError.NoEntry rfl⟩

/-- C10: a stored text value that is not valid base64 is read back as
`none` by `get_binary`, so `get_secret` (and `get_credential`) report
`NoEntry` for it — never `BadDataFormat` or `PlatformFailure`. -/
theorem bad_base64_reads_as_absent (cipher : CipherOps) (st : SysState)
    (service user : String) (s : List Char)
    (hs : st.prefs service user = some s) (hdec : b64Decode s = none) :
    getBinary st.prefs service user = none ∧
    (get_secret cipher st service user).1 = Outcome.err KeyringError.NoEntry ∧
    (get_credential cipher st service user).1 = Outcome.err KeyringError.NoEntry := by
  have hbin : getBinary st.prefs service user = none := by
    simp [getBinary, getString, hs, hdec]
  refine ⟨hbin, get_secret_absent _ _ _ _ hbin, ?_⟩
  have h1 := get_secret_absent cipher st service user hbin
  exact (get_credential_probe_err cipher st service user KeyringError.NoEntry h1)

/-- C10 witness: the stored text `"!"` is rejected by the base64 decoder
and reads as an absent record. -/
theorem bad_base64_reads_as_absent_witness :
    badB64State.prefs "svc" "usr" = some [Char.ofNat 33] ∧
    b64Decode [Char.ofNat 33] = none ∧
    (get_secret zeroTagCipher badB64State "svc" "usr").1
      = Outcome.err KeyringError.NoEntry :=
  ⟨rfl, rfl, (bad_base64_reads_as_absent zeroTagCipher badB64State "svc" "usr"
      [Char.ofNat 33] rfl rfl).2.1⟩

end AndroidKeyring
